import Mathlib

/-!
Verification of the wiki-generator content generation core
(`existing_scripts/generate_content.py`): link-bank eligibility and
usage accounting, masking-link sampling, prompt assembly and the
batch generation driver.  Python strings are modelled as `String`
(lists of characters), the mutable `link_usage` dict as a total
function `String → Nat` (Python reads use `.get(url, 0)`), the
OpenAI client as a response oracle, and `random.sample` as a
deterministic selection driven by a stream `Nat → Nat` of random
numbers.
-/

/- ## String machinery (Python `in`, `str.replace`, `'\n'.join`, `str.strip`) -/

/-- Boolean prefix test on character lists. -/
def isPrefixL : List Char → List Char → Bool
  | [], _ => true
  | _ :: _, [] => false
  | a :: p, b :: s => a == b && isPrefixL p s

/-- Boolean substring occurrence test on character lists (Python `pat in s`). -/
def occursIn (p : List Char) : List Char → Bool
  | [] => p.isEmpty
  | c :: s => isPrefixL p (c :: s) || occursIn p s

/-- Replace every (leftmost, non-overlapping) occurrence of `p` by `r`,
as Python `str.replace` does with a non-empty pattern. -/
def replaceAll (p r : List Char) : List Char → List Char
  | [] => []
  | c :: s =>
    if h : p ≠ [] ∧ isPrefixL p (c :: s) = true then
      r ++ replaceAll p r ((c :: s).drop p.length)
    else
      c :: replaceAll p r s
termination_by l => l.length
decreasing_by
  · have hp : 0 < p.length := List.length_pos.mpr h.1
    simp only [List.length_drop, List.length_cons]
    omega
  · simp [List.length_cons]

/-- Split a character list around the first occurrence of `p`:
returns the part before and the part after that occurrence. -/
def splitFirst (p : List Char) : List Char → Option (List Char × List Char)
  | [] => if p.isEmpty then some ([], []) else none
  | c :: s =>
    if isPrefixL p (c :: s) then some ([], (c :: s).drop p.length)
    else
      match splitFirst p s with
      | some (a, b) => some (c :: a, b)
      | none => none

/-- Scan for two consecutive open square brackets (wiki internal-link opener). -/
def hasDB : List Char → Bool
  | c :: d :: s => (c == '[' && d == '[') || hasDB (d :: s)
  | _ => false

/-- Python `pat in s` on `String`s. -/
def strContains (s pat : String) : Bool := occursIn pat.data s.data

/-- Python `s.replace(pat, repl)` on `String`s. -/
def strReplace (s pat repl : String) : String := String.mk (replaceAll pat.data repl.data s.data)

/-- Double-open-bracket detector on `String`s. -/
def hasDBs (s : String) : Bool := hasDB s.data

/-- Python `'\n'.join(lines)`. -/
def nlJoin : List String → String
  | [] => ""
  | [s] => s
  | s :: t :: rest => s ++ "\n" ++ nlJoin (t :: rest)

/-- Python `', '.join(parts)`. -/
def commaJoin : List String → String
  | [] => ""
  | [s] => s
  | s :: t :: rest => s ++ ", " ++ commaJoin (t :: rest)

/-- Python `s.strip()`. -/
def pyStrip (s : String) : String :=
  String.mk (((s.data.dropWhile Char.isWhitespace).reverse.dropWhile Char.isWhitespace).reverse)

/- ## Data model -/

/-- One entry of a link bank: `{url, anchors, count}` in the YAML
configuration; `count` is the target inclusion quota (`0` = unlimited).
A missing key reads as `''` / `[]` / `0` through Python `dict.get`. -/
structure LinkEntry where
  url : String
  anchors : List String
  count : Nat
deriving DecidableEq

/-- A page specification from the `pages:` list of the YAML configuration.
`Option` fields model keys that may be absent (Python `page.get`). -/
structure PageSpec where
  title : String
  category : Option String
  description : Option String
  keyPoints : List String
  relatedPages : List String
  externalLinks : List String
  formatHint : Option String
deriving DecidableEq

/-- The `style:` block of the configuration. -/
structure StyleConfig where
  tone : Option String
  includeItems : List String
  avoidItems : List String
deriving DecidableEq

/-- The top-level configuration fields consumed by the prompt builders. -/
structure WikiConfig where
  wikiName : Option String
  defaultCategory : Option String
  style : StyleConfig
deriving DecidableEq

/-- The mutable state of a `WikiContentGenerator` instance: configuration,
resolved content format and space key, the two link banks, and the
per-URL usage map (`link_usage`, read with default `0`). -/
structure GenState where
  config : WikiConfig
  contentFormat : String
  spaceKey : Option String
  globalLinks : List LinkEntry
  maskingLinks : List LinkEntry
  linkUsage : String → Nat

/-- Result of one `generate_page` call: the updated generator state, the
composed user prompt sent to the model, and the returned page content. -/
structure GenOutcome where
  state : GenState
  prompt : String
  content : String

/-- Accumulated result of a batch run (`generate_all`): page titles that
succeeded and `(title, error)` pairs for pages whose model call raised. -/
structure BatchResult where
  success : List String
  failed : List (String × String)

/- ## Embedding of `generate_content.py` -/

/-- Source `build_system_prompt(config, content_format, space_key)`. -/
def build_system_prompt (config : WikiConfig) (content_format : String) (space_key : Option String) : String :=
  let tone := config.style.tone.getD "encyclopaedic, neutral"
  let head :=
    if content_format = "confluence" then
      "You are an expert wiki content writer creating pages for the \"" ++ config.wikiName.getD "Wiki" ++ "\".\n\nYour task is to generate high-quality Confluence Storage Format content (XHTML-compatible).\n\n## Writing Style\n- Tone: " ++ tone ++ "\n- Format: Confluence Storage Format (NOT Markdown)\n\n## Required Elements\n"
    else
      "You are an expert wiki content writer creating pages for the \"" ++ config.wikiName.getD "Wiki" ++ "\".\n\nYour task is to generate high-quality MediaWiki-formatted content.\n\n## Writing Style\n- Tone: " ++ tone ++ "\n- Format: MediaWiki markup (NOT Markdown)\n\n## Required Elements\n"
  let p1 := config.style.includeItems.foldl (fun acc it => acc ++ "- " ++ it ++ "\n") head
  let p2 := p1 ++ "\n## Avoid\n"
  let p3 := config.style.avoidItems.foldl (fun acc it => acc ++ "- " ++ it ++ "\n") p2
  let tail :=
    if content_format = "confluence" then
      "\n## Confluence Storage Format Reference\n- Headings: <h1>, <h2>, <h3>\n- Bold: <strong>text</strong>\n- Italic: <em>text</em>\n- Links: <a href=\"https://url.com\">Link Text</a>\n- Bullet list: <ul><li>item</li></ul>\n- Numbered list: <ol><li>item</li></ol>\n- Tables: <table><tbody><tr><th>...</th></tr>...</tbody></table>\n\n## Important\n- Use ONLY Confluence storage format (XHTML-compatible), never Markdown\n- For internal wiki links, use Confluence storage links (no raw URLs).\n  Example:\n  <ac:link><ri:page ri:space-key=\"" ++ (match space_key with | some s => if s = "" then "SPACE" else s | none => "SPACE") ++ "\" ri:content-title=\"Page Title\"/></ac:link>\n- Include a table for structured data where appropriate\n- Be factual and cite official sources where possible\n- For Australian gambling content, reference official government sources\n"
    else
      "\n## MediaWiki Syntax Reference\n- Headings: = H1 =, == H2 ==, === H3 ===\n- Bold: '''text'''\n- Italic: ''text''\n- Internal links: [[Page Name]] or [[Page Name|Display Text]]\n- External links: [https://url.com Link Text]\n- Bullet list: * item\n- Numbered list: # item\n- Tables: \x7b| class=\"wikitable\" ... |\x7d\n- Categories: [[Category:Name]]\n- Definition lists: ; term : definition\n\n## Important\n- Use ONLY MediaWiki syntax, never Markdown\n- Include a wikitable for structured data where appropriate\n- Always end with [[Category:CategoryName]]\n- Be factual and cite official sources where possible\n- For Australian gambling content, reference official government sources\n"
  p3 ++ tail

/-- Source `build_page_prompt(page, config, content_format)`. -/
def build_page_prompt (page : PageSpec) (config : WikiConfig) (content_format : String) : String :=
  let base := "Generate a complete MediaWiki page for: \"" ++ page.title ++ "\"\n\n## Page Details\n- Category: " ++ page.category.getD (config.defaultCategory.getD "General") ++ "\n- Description: " ++ page.description.getD "No description provided" ++ "\n\n## Key Points to Cover\n"
  let p1 := page.keyPoints.foldl (fun acc pt => acc ++ "- " ++ pt ++ "\n") base
  let p2 :=
    if page.relatedPages ≠ [] then
      page.relatedPages.foldl (fun acc r => acc ++ "- [[" ++ r ++ "]]\n") (p1 ++ "\n## Related Pages (for See Also section)\n")
    else p1
  let p3 :=
    if page.externalLinks ≠ [] then
      page.externalLinks.foldl (fun acc l => acc ++ "- " ++ l ++ "\n") (p2 ++ "\n## External Links to Include\n")
    else p2
  let p4 :=
    match page.formatHint with
    | some f => if f = "" then p3 else p3 ++ "\n## Special Format Instructions\n" ++ f ++ "\n"
    | none => p3
  if content_format = "confluence" then
    strReplace p4 "MediaWiki page" "Confluence page" ++ "\n## Output Requirements\n1. Start with a brief lead paragraph (no heading)\n2. Use <h2> section headings\n3. Include at least one HTML table\n4. End with <h2>See Also</h2> and <h2>External Links</h2>\n5. Output ONLY the Confluence storage HTML, no explanations or code blocks\n"
  else
    p4 ++ "\n## Output Requirements\n1. Start with a brief lead paragraph (no heading)\n2. Use == Section Headings ==\n3. Include at least one \x7b| class=\"wikitable\" |\x7d table\n4. End with == See Also ==, == External Links ==, and [[Category:" ++ page.category.getD "General" ++ "]]\n5. Output ONLY the wiki markup, no explanations or code blocks\n"

/-- The fixed anchor searched for by `generate_page` when injecting the link bank. -/
def outputMarker : String := "## Output Requirements"

/-- Source `set_global_links`: replaces the primary bank and resets the usage
map; every URL reads as `0` afterwards (Python initialises bank URLs to `0`
and all reads use `.get(url, 0)`). -/
def set_global_links (st : GenState) (links : List LinkEntry) : GenState :=
  { st with globalLinks := links, linkUsage := fun _ => 0 }

/-- Source `set_masking_links`: stores the masking bank, dropping entries
without a `url`. -/
def set_masking_links (st : GenState) (links : List LinkEntry) : GenState :=
  { st with maskingLinks := links.filter (fun l => l.url ≠ "") }

/-- Source `_get_eligible_links`: keeps bank entries, in order, whose `url`
is non-empty and whose target count is `0` (unlimited) or not yet reached. -/
def get_eligible_links : List LinkEntry → (String → Nat) → List LinkEntry
  | [], _ => []
  | l :: rest, usage =>
    if l.url = "" then get_eligible_links rest usage
    else if l.count = 0 ∨ usage l.url < l.count then l :: get_eligible_links rest usage
    else get_eligible_links rest usage

/-- Remove and return the element at index `i` (used to model one
without-replacement draw of `random.sample`). -/
def extractIdx {α : Type} : List α → Nat → Option (α × List α)
  | [], _ => none
  | a :: t, 0 => some (a, t)
  | a :: t, i + 1 => (extractIdx t i).map (fun x => (x.1, a :: x.2))

/-- `random.sample(l, m)` modelled as `m` successive without-replacement
draws, the index of each draw taken from the random stream `rnd`. -/
def randomSample {α : Type} (rnd : Nat → Nat) : Nat → Nat → List α → List α
  | _, 0, _ => []
  | step, m + 1, l =>
    match extractIdx l (rnd step % l.length) with
    | none => []
    | some (x, r) => x :: randomSample rnd (step + 1) m r

/-- Source `_get_random_masking_links(n)`: empty when the masking bank is
empty (or was never set), otherwise `random.sample(masking, min(n, len))`. -/
def get_random_masking_links (rnd : Nat → Nat) (masking : List LinkEntry) (n : Nat) : List LinkEntry :=
  if masking = [] then [] else randomSample rnd 0 (min n masking.length) masking

/-- The format-specific instruction line of `_build_links_section`
(Python local `syntax_note`). -/
def build_links_note (content_format : String) : String :=
  if content_format = "confluence" then
    "These are EXTERNAL links — use <a href=\"URL\">anchor</a> format. Do NOT use <ac:link> for these."
  else
    "SYNTAX: Each link MUST include the full URL from the list below. Format: [https://full-url-here.com/path/ anchor text]. Example: [https://www.sunvegascasino.com/deposits/visa/ visa casino]. NEVER use [[anchor text]] or [[anchor text|display]] syntax for these — that creates broken internal wiki links. Always use [URL anchor] with the full URL."

/-- One `- URL: ... (anchor options: ...)` line, emitted only when both the
URL and the anchor list are non-empty (Python `if url and anchors`). -/
def link_line (l : LinkEntry) : Option String :=
  if l.url ≠ "" ∧ l.anchors ≠ [] then
    some ("- URL: " ++ l.url ++ " (anchor options: " ++ commaJoin (l.anchors.map (fun a => "\"" ++ a ++ "\"")) ++ ")")
  else none

/-- The `lines` list assembled by `_build_links_section` (before joining):
fixed header lines, the format note, one line per eligible link, and — when
the masking sample is non-empty — the masking block. -/
def build_links_section_lines (st : GenState) (rnd : Nat → Nat) : List String :=
  let note := build_links_note st.contentFormat
  let withLinks :=
    ["\n## Global Link Bank (External Links)",
     "You MUST embed these links INLINE within the body paragraphs of the article, not in the External Links section at the bottom. Weave the anchor text naturally into sentences within relevant sections. Use only the provided anchor text options. Only include links that are contextually relevant to this page topic.",
     "IMPORTANT: Do NOT place these links in the == External Links == section. They must appear as inline hyperlinks within the article body text.",
     note]
    ++ (get_eligible_links st.globalLinks st.linkUsage).filterMap link_line
  let maskingSample := get_random_masking_links rnd st.maskingLinks 3
  if maskingSample ≠ [] then
    withLinks
    ++ ["", "## Natural Reference Links",
        "Include 1-2 of these non-commercial reference links where contextually appropriate. These are SECONDARY to the links above — only add them if they fit naturally. Do NOT prioritise these over the links in the Global Link Bank above.",
        note]
    ++ maskingSample.filterMap link_line
  else withLinks

/-- Source `_build_links_section`: empty string when no primary link is
eligible, otherwise the joined lines followed by a newline. -/
def build_links_section (st : GenState) (rnd : Nat → Nat) : String :=
  if get_eligible_links st.globalLinks st.linkUsage = [] then ""
  else nlJoin (build_links_section_lines st rnd) ++ "\n"

/-- One usage increment: `self.link_usage[url] = self.link_usage.get(url, 0) + 1`. -/
def bumpUsage (usage : String → Nat) (url : String) : String → Nat :=
  fun u => if u = url then usage url + 1 else usage u

/-- The post-call accounting loop shared by `generate_page` and
`add_links_to_existing` (operator mode): for each link of `links`, in order,
increment its usage count when its URL is non-empty and occurs literally in
`content`. -/
def trackUsage : List LinkEntry → String → (String → Nat) → String → Nat
  | [], _, usage => usage
  | l :: rest, content, usage =>
    if l.url ≠ "" ∧ strContains content l.url = true then
      trackUsage rest content (bumpUsage usage l.url)
    else trackUsage rest content usage

/-- Source `generate_page(page)`.  The model call is replaced by the
`response` oracle and `datetime.now().isoformat()` by `now`; `rnd` drives
the masking sample inside `_build_links_section`. -/
def generate_page (st : GenState) (page : PageSpec) (rnd : Nat → Nat) (response : String) (now : String) : GenOutcome :=
  let user_prompt := build_page_prompt page st.config st.contentFormat
  let links_section := build_links_section st rnd
  let user_prompt :=
    if links_section ≠ "" then
      if strContains user_prompt outputMarker then
        strReplace user_prompt outputMarker (links_section ++ outputMarker)
      else user_prompt ++ links_section
    else user_prompt
  let usage := trackUsage (get_eligible_links st.globalLinks st.linkUsage) response st.linkUsage
  let metadata := "<!--\n    Generated: " ++ now ++ "\n    Page: " ++ page.title ++ "\n    Category: " ++ page.category.getD "General" ++ "\n    Generator: OpenAI GPT-4o\n-->\n"
  { state := { st with linkUsage := usage }, prompt := user_prompt, content := metadata ++ pyStrip response }

/-- Source `add_links_to_existing(existing_content, page, mode)`: masking
mode weaves a random masking sample, any other mode weaves the eligible
primary links; usage is tracked only when `mode == 'add_operator'`.
With no links available the call returns the existing content unchanged
(no model call). -/
def add_links_to_existing (st : GenState) (existing_content : String) (page : PageSpec) (mode : String) (rnd : Nat → Nat) (response : String) : GenOutcome :=
  let links :=
    if mode = "add_masking" then get_random_masking_links rnd st.maskingLinks 3
    else get_eligible_links st.globalLinks st.linkUsage
  if links = [] then { state := st, prompt := "", content := existing_content }
  else
    let note :=
      if st.contentFormat = "confluence" then "Use <a href=\"URL\">anchor</a> format."
      else "Format: [https://full-url-here.com/path/ anchor text]. NEVER use [[anchor text]] wiki link syntax for these."
    let link_lines := links.filterMap link_line
    let protect_rule :=
      if mode = "add_masking" then
        "- Do NOT change existing content, structure, headings, or tables\n- Do NOT remove, move, or alter any existing commercial/operator links in the article — leave them exactly as they are"
      else
        "- Do NOT change existing content, structure, headings, or tables\n- Do NOT remove, move, or alter any existing non-commercial reference links in the article — leave them exactly as they are"
    let count_hint := if mode = "add_masking" then "1-2" else "all contextually relevant"
    let link_type := if mode = "add_masking" then "non-commercial reference" else "external"
    let prompt :=
      "Here is an existing wiki article. Add " ++ count_hint ++ " of these " ++ link_type ++ " links inline within the body text where contextually appropriate.\n\nRULES:\n" ++ protect_rule ++ "\n- Only ADD the new links by weaving anchor text into existing sentences or adding brief natural phrases\n- Do NOT place links in the External Links or See Also sections\n- " ++ note ++ "\n- Output ONLY the modified article, no explanations\n\nLinks to add:\n" ++ nlJoin link_lines ++ "\n\nExisting article:\n" ++ existing_content
    let content := response
    if mode = "add_operator" then
      { state := { st with linkUsage := trackUsage links content st.linkUsage }, prompt := prompt, content := content }
    else { state := st, prompt := prompt, content := content }

/-- Recursive worker of `generate_all`: page `k` of the batch uses response
oracle `oracles (idx + k)` and random stream `rnds (idx + k)`.  An `ok`
response runs `generate_page` and records the title as a success; an
`error` leaves the state untouched and records `(title, error)` as a
failure, and in both cases the iteration continues. -/
def generate_all_go (oracles : Nat → Except String String) (rnds : Nat → Nat → Nat) (now : String) : GenState → Nat → List PageSpec → BatchResult × GenState
  | st, _, [] => ({ success := [], failed := [] }, st)
  | st, idx, p :: rest =>
    match oracles idx with
    | Except.ok response =>
      let out := generate_page st p (rnds idx) response now
      let r := generate_all_go oracles rnds now out.state (idx + 1) rest
      ({ success := p.title :: r.1.success, failed := r.1.failed }, r.2)
    | Except.error e =>
      let r := generate_all_go oracles rnds now st (idx + 1) rest
      ({ success := r.1.success, failed := (p.title, e) :: r.1.failed }, r.2)

/-- Source `generate_all(output_dir)` over a page list, with the model call
of page `k` modelled by `oracles k` (an exception is `Except.error`). -/
def generate_all (st : GenState) (pages : List PageSpec) (oracles : Nat → Except String String) (rnds : Nat → Nat → Nat) (now : String) : BatchResult × GenState :=
  generate_all_go oracles rnds now st 0 pages

/-- Link-usage invariant of the spec: no quota-bounded link of the bank is
recorded more often than its target count. -/
def UsageInv (bank : List LinkEntry) (usage : String → Nat) : Prop :=
  ∀ l ∈ bank, 0 < l.count → usage l.url ≤ l.count

/- ## Concrete fixtures used by witnesses and counterexamples -/

/-- A small style block. -/
def wStyle : StyleConfig := { tone := some "neutral", includeItems := ["facts"], avoidItems := ["fluff"] }

/-- A small configuration. -/
def wCfg : WikiConfig := { wikiName := some "TestWiki", defaultCategory := some "General", style := wStyle }

/-- A quota-one primary link. -/
def aLink : LinkEntry := { url := "https://a.example/x/", anchors := ["a anchor"], count := 1 }

/-- An unlimited (`count = 0`) primary link. -/
def bLink : LinkEntry := { url := "https://b.example/y/", anchors := ["b anchor"], count := 0 }

/-- A masking link. -/
def mLink : LinkEntry := { url := "https://m.example/ref/", anchors := ["m anchor"], count := 0 }

/-- A bank entry with `count = 0` whose `url` key is missing (reads as `''`). -/
def emptyUrlEntry : LinkEntry := { url := "", anchors := [], count := 0 }

/-- A generator state with two primary links and one masking link. -/
def wSt : GenState :=
  { config := wCfg, contentFormat := "mediawiki", spaceKey := none,
    globalLinks := [aLink, bLink], maskingLinks := [mLink], linkUsage := fun _ => 0 }

/-- A generator state with no links loaded. -/
def wSt0 : GenState :=
  { config := wCfg, contentFormat := "mediawiki", spaceKey := none,
    globalLinks := [], maskingLinks := [], linkUsage := fun _ => 0 }

/-- A confluence-format generator state. -/
def cSt : GenState :=
  { config := wCfg, contentFormat := "confluence", spaceKey := some "SP",
    globalLinks := [aLink, bLink], maskingLinks := [mLink], linkUsage := fun _ => 0 }

/-- A state built through `set_masking_links` and `set_global_links`. -/
def cexSt : GenState := set_global_links (set_masking_links wSt0 [mLink]) [bLink]

/-- A model response mentioning one primary and one masking URL. -/
def cexResponse : String := "see https://b.example/y/ and https://m.example/ref/ in text"

/-- A page specification. -/
def wPage : PageSpec :=
  { title := "P1", category := some "Cat", description := some "desc",
    keyPoints := ["k1"], relatedPages := [], externalLinks := [], formatHint := none }

/-- Batch page 1. -/
def wp1 : PageSpec :=
  { title := "P1", category := none, description := none,
    keyPoints := [], relatedPages := [], externalLinks := [], formatHint := none }

/-- Batch page 2. -/
def wp2 : PageSpec :=
  { title := "P2", category := none, description := none,
    keyPoints := [], relatedPages := [], externalLinks := [], formatHint := none }

/-- Batch page 3. -/
def wp3 : PageSpec :=
  { title := "P3", category := none, description := none,
    keyPoints := [], relatedPages := [], externalLinks := [], formatHint := none }

/-- A response oracle whose second page raises. -/
def wOracle : Nat → Except String String :=
  fun j => if j = 1 then Except.error "boom" else Except.ok "body"

/-- A response mentioning the quota-one link only. -/
def wResponse : String := "body with https://a.example/x/ inline"

/- ## Lemmas about the string machinery -/

lemma isPrefixL_iff (p : List Char) : ∀ s, isPrefixL p s = true ↔ ∃ t, s = p ++ t := by
  induction p with
  | nil => intro s; simp [isPrefixL]
  | cons a p ih =>
    intro s
    cases s with
    | nil => simp [isPrefixL]
    | cons b s =>
      simp only [isPrefixL, Bool.and_eq_true, beq_iff_eq, ih, List.cons_append]
      constructor
      · rintro ⟨rfl, t, rfl⟩; exact ⟨t, rfl⟩
      · rintro ⟨t, ht⟩
        injection ht with h1 h2
        subst h1; subst h2
        exact ⟨rfl, t, rfl⟩

lemma isPrefixL_append_self (p : List Char) : ∀ t, isPrefixL p (p ++ t) = true := by
  induction p with
  | nil => intro t; rfl
  | cons a p ih => intro t; simp [isPrefixL, ih]

lemma occursIn_nil_left (s : List Char) : occursIn [] s = true := by
  cases s <;> simp [occursIn, isPrefixL]

lemma occursIn_append_right (p a b : List Char) (h : occursIn p b = true) :
    occursIn p (a ++ b) = true := by
  induction a with
  | nil => simpa
  | cons c a ih => simpa [occursIn] using Or.inr ih

lemma occursIn_self_append (p t : List Char) : occursIn p (p ++ t) = true := by
  cases p with
  | nil => exact occursIn_nil_left _
  | cons a q =>
    have h := isPrefixL_append_self (a :: q) t
    rw [List.cons_append] at h
    simp [occursIn, h]

lemma replaceAll_not_occurs (p r : List Char) :
    ∀ s, occursIn p s = false → replaceAll p r s = s := by
  intro s
  induction s with
  | nil => intro _; simp [replaceAll]
  | cons c s ih =>
    intro h
    rw [occursIn, Bool.or_eq_false_iff] at h
    rw [replaceAll, dif_neg, ih h.2]
    rintro ⟨-, hpre⟩
    rw [h.1] at hpre
    exact Bool.false_ne_true hpre

lemma splitFirst_spec (p r : List Char) (hp : p ≠ []) :
    ∀ s a b, splitFirst p s = some (a, b) →
      s = a ++ p ++ b ∧ replaceAll p r s = a ++ r ++ replaceAll p r b := by
  intro s
  induction s with
  | nil =>
    intro a b h
    cases p with
    | nil => exact absurd rfl hp
    | cons x q => simp [splitFirst] at h
  | cons c s ih =>
    intro a b h
    by_cases hpre : isPrefixL p (c :: s) = true
    · rw [splitFirst, if_pos hpre] at h
      obtain ⟨t, ht⟩ := (isPrefixL_iff p (c :: s)).mp hpre
      injection h with h'
      injection h' with ha hb
      subst ha
      have hdrop : (c :: s).drop p.length = t := by rw [ht, List.drop_left]
      rw [hdrop] at hb
      subst hb
      constructor
      · simpa using ht
      · rw [replaceAll, dif_pos ⟨hp, hpre⟩, hdrop]
        simp
    · rw [splitFirst, if_neg hpre] at h
      cases heq : splitFirst p s with
      | none => rw [heq] at h; cases h
      | some ab =>
        rw [heq] at h
        injection h with h'
        obtain ⟨a', b'⟩ := ab
        injection h' with ha hb
        subst hb
        obtain ⟨hs, hr⟩ := ih a' b' heq
        subst ha
        constructor
        · simp [hs]
        · rw [replaceAll, dif_neg, hr]
          · simp
          · rintro ⟨-, hpre'⟩; exact hpre hpre'

/- ## Lemmas: eligibility -/

lemma get_eligible_eq_filter (bank : List LinkEntry) (usage : String → Nat) :
    get_eligible_links bank usage =
      bank.filter (fun l => decide (l.url ≠ "" ∧ (l.count = 0 ∨ usage l.url < l.count))) := by
  induction bank with
  | nil => rfl
  | cons x rest ih =>
    by_cases h1 : x.url = ""
    · simp [get_eligible_links, h1, ih, List.filter_cons]
    · by_cases h2 : x.count = 0 ∨ usage x.url < x.count
      · simp [get_eligible_links, h1, h2, ih, List.filter_cons]
      · simp [get_eligible_links, h1, h2, ih, List.filter_cons]

lemma get_eligible_sublist (bank : List LinkEntry) (usage : String → Nat) :
    List.Sublist (get_eligible_links bank usage) bank := by
  rw [get_eligible_eq_filter]
  exact List.filter_sublist bank

lemma mem_get_eligible (bank : List LinkEntry) (usage : String → Nat) (l : LinkEntry) :
    l ∈ get_eligible_links bank usage ↔
      l ∈ bank ∧ l.url ≠ "" ∧ (l.count = 0 ∨ usage l.url < l.count) := by
  rw [get_eligible_eq_filter, List.mem_filter]
  simp

/- ## Lemmas: usage tracking -/

lemma trackUsage_not_mem (content : String) :
    ∀ (links : List LinkEntry) (usage : String → Nat) (u : String),
      (∀ l ∈ links, l.url ≠ u) → trackUsage links content usage u = usage u := by
  intro links
  induction links with
  | nil => intro usage u _; rfl
  | cons l rest ih =>
    intro usage u hne
    rw [trackUsage]
    by_cases hg : l.url ≠ "" ∧ strContains content l.url = true
    · rw [if_pos hg, ih _ _ (fun x hx => hne x (List.mem_cons_of_mem l hx))]
      have : u ≠ l.url := fun h => hne l (List.mem_cons_self l rest) h.symm
      simp [bumpUsage, this]
    · rw [if_neg hg]
      exact ih _ _ (fun x hx => hne x (List.mem_cons_of_mem l hx))

lemma trackUsage_eq (content : String) :
    ∀ (links : List LinkEntry) (usage : String → Nat) (u : String),
      (links.map (fun l => l.url)).Nodup →
      (∀ l ∈ links, l.url ≠ "") →
      trackUsage links content usage u =
        if links.any (fun l => l.url == u && strContains content l.url) = true
        then usage u + 1 else usage u := by
  intro links
  induction links with
  | nil => intro usage u _ _; rfl
  | cons l rest ih =>
    intro usage u hnodup hne
    rw [List.map_cons, List.nodup_cons] at hnodup
    have hlne : l.url ≠ "" := hne l (List.mem_cons_self l rest)
    have hrne : ∀ x ∈ rest, x.url ≠ "" := fun x hx => hne x (List.mem_cons_of_mem l hx)
    rw [trackUsage, List.any_cons]
    by_cases hc : strContains content l.url = true
    · rw [if_pos ⟨hlne, hc⟩]
      by_cases hu : l.url = u
      · subst hu
        have hrest : ∀ x ∈ rest, x.url ≠ l.url := by
          intro x hx h
          exact hnodup.1 (h ▸ List.mem_map_of_mem (fun e => e.url) hx)
        rw [trackUsage_not_mem content rest _ _ hrest]
        simp [bumpUsage, hc]
      · have hb : (l.url == u) = false := by simp [hu]
        rw [ih _ _ hnodup.2 hrne]
        simp only [hb, Bool.false_and, Bool.false_or]
        have : bumpUsage usage l.url u = usage u := by
          unfold bumpUsage
          rw [if_neg (fun h : u = l.url => hu h.symm)]
        by_cases hany : rest.any (fun x => x.url == u && strContains content x.url) = true
        · simp [hany, this]
        · simp only [Bool.not_eq_true] at hany
          simp [hany, this]
    · rw [if_neg (fun hg => hc hg.2), ih _ _ hnodup.2 hrne]
      have hb : (l.url == u && strContains content l.url) = false := by
        rw [Bool.not_eq_true] at hc
        simp [hc]
      rw [hb]
      simp

/- ## Lemmas: sampling -/

lemma extractIdx_perm {α : Type} :
    ∀ (l : List α) (i : Nat) (x : α) (r : List α),
      extractIdx l i = some (x, r) → List.Perm l (x :: r) := by
  intro l
  induction l with
  | nil => intro i x r h; cases h
  | cons a t ih =>
    intro i x r h
    cases i with
    | zero =>
      injection h with h'
      injection h' with hx hr
      subst hx; subst hr
      exact List.Perm.refl _
    | succ j =>
      rw [extractIdx] at h
      cases heq : extractIdx t j with
      | none => rw [heq] at h; cases h
      | some xr =>
        rw [heq] at h
        injection h with h'
        obtain ⟨x', r'⟩ := xr
        injection h' with hx hr
        subst hx; subst hr
        exact (List.Perm.cons a (ih j x' r' heq)).trans (List.Perm.swap x' a r')

lemma extractIdx_isSome {α : Type} :
    ∀ (l : List α) (i : Nat), i < l.length → ∃ x r, extractIdx l i = some (x, r) := by
  intro l
  induction l with
  | nil => intro i h; exact absurd h (by simp)
  | cons a t ih =>
    intro i h
    cases i with
    | zero => exact ⟨a, t, rfl⟩
    | succ j =>
      obtain ⟨x, r, hx⟩ := ih j (by simpa using Nat.lt_of_succ_lt_succ h)
      exact ⟨x, a :: r, by rw [extractIdx, hx]; rfl⟩

lemma randomSample_length {α : Type} (rnd : Nat → Nat) :
    ∀ (m step : Nat) (l : List α), m ≤ l.length → (randomSample rnd step m l).length = m := by
  intro m
  induction m with
  | zero => intro step l _; rfl
  | succ k ih =>
    intro step l hm
    have hpos : 0 < l.length := Nat.lt_of_lt_of_le (Nat.succ_pos k) hm
    obtain ⟨x, r, hx⟩ := extractIdx_isSome l (rnd step % l.length) (Nat.mod_lt _ hpos)
    rw [randomSample, hx]
    have hlen : l.length = r.length + 1 := by
      simpa using (extractIdx_perm l _ x r hx).length_eq
    rw [List.length_cons, ih (step + 1) r (by omega)]

lemma randomSample_subperm {α : Type} (rnd : Nat → Nat) :
    ∀ (m step : Nat) (l : List α), List.Subperm (randomSample rnd step m l) l := by
  intro m
  induction m with
  | zero => intro step l; exact List.nil_subperm
  | succ k ih =>
    intro step l
    rw [randomSample]
    cases hx : extractIdx l (rnd step % l.length) with
    | none => exact List.nil_subperm
    | some xr =>
      obtain ⟨x, r⟩ := xr
      have hperm := extractIdx_perm l _ x r hx
      show List.Subperm (x :: randomSample rnd (step + 1) k r) l
      rw [hperm.subperm_left]
      exact (List.subperm_cons x).mpr (ih (step + 1) r)

lemma get_random_masking_subperm (rnd : Nat → Nat) (masking : List LinkEntry) (n : Nat) :
    List.Subperm (get_random_masking_links rnd masking n) masking := by
  rw [get_random_masking_links]
  by_cases h : masking = []
  · rw [if_pos h]; exact List.nil_subperm
  · rw [if_neg h]; exact randomSample_subperm rnd _ 0 masking

/- ## Lemmas: double-bracket scan -/

lemma hasDB_cons_of_ne (c : Char) (l : List Char) (hc : c ≠ '[') : hasDB (c :: l) = hasDB l := by
  cases l with
  | nil => rfl
  | cons d t =>
    have hcb : (c == '[') = false := by simp [hc]
    simp [hasDB, hcb]

lemma hasDB_append :
    ∀ (a b : List Char), hasDB (a ++ b) = true →
      hasDB a = true ∨ hasDB b = true ∨ (a.getLast? = some '[' ∧ b.head? = some '[') := by
  intro a
  induction a with
  | nil => intro b h; exact Or.inr (Or.inl h)
  | cons c a ih =>
    intro b h
    cases a with
    | nil =>
      cases b with
      | nil => simp [hasDB] at h
      | cons d t =>
        rw [List.singleton_append, hasDB] at h
        rcases (Bool.or_eq_true _ _).mp h with h1 | h2
        · obtain ⟨hc, hd⟩ := (Bool.and_eq_true _ _).mp h1
          rw [beq_iff_eq] at hc hd
          exact Or.inr (Or.inr ⟨by rw [hc]; rfl, by rw [hd]; rfl⟩)
        · exact Or.inr (Or.inl h2)
    | cons c' a' =>
      rw [List.cons_append, List.cons_append, hasDB] at h
      rcases (Bool.or_eq_true _ _).mp h with h1 | h2
      · left
        rw [hasDB, h1]
        rfl
      · rw [← List.cons_append] at h2
        rcases ih b h2 with h3 | h3 | ⟨h3, h4⟩
        · left
          rw [hasDB, h3]
          simp
        · exact Or.inr (Or.inl h3)
        · refine Or.inr (Or.inr ⟨?_, h4⟩)
          rw [List.getLast?_cons_cons]
          exact h3

lemma hasDB_append_false (a b : List Char) (ha : hasDB a = false) (hb : hasDB b = false)
    (hx : b.head? ≠ some '[' ∨ a.getLast? ≠ some '[') : hasDB (a ++ b) = false := by
  by_contra hcon
  rw [Bool.not_eq_false] at hcon
  rcases hasDB_append a b hcon with h | h | ⟨h1, h2⟩
  · rw [ha] at h; exact Bool.false_ne_true h
  · rw [hb] at h; exact Bool.false_ne_true h
  · rcases hx with hx | hx
    · exact hx h2
    · exact hx h1

lemma hasDBs_append (a b : String) (ha : hasDBs a = false) (hb : hasDBs b = false)
    (hx : b.data.head? ≠ some '[' ∨ a.data.getLast? ≠ some '[') : hasDBs (a ++ b) = false := by
  show hasDB (a ++ b).data = false
  rw [String.data_append]
  exact hasDB_append_false _ _ ha hb hx

lemma hasDBs_nlJoin :
    ∀ (lines : List String), (∀ l ∈ lines, hasDBs l = false) → hasDBs (nlJoin lines) = false := by
  intro lines
  induction lines with
  | nil => intro _; rfl
  | cons s rest ih =>
    intro h
    cases rest with
    | nil => exact h s (List.mem_singleton.mpr rfl)
    | cons t rest' =>
      rw [nlJoin]
      have hs : hasDBs s = false := h s (List.mem_cons_self _ _)
      have hrest : hasDBs (nlJoin (t :: rest')) = false :=
        ih (fun x hx => h x (List.mem_cons_of_mem s hx))
      have hnl : hasDBs ("\n" ++ nlJoin (t :: rest')) = false := by
        show hasDB (("\n" ++ nlJoin (t :: rest')).data) = false
        rw [String.data_append]
        have : ("\n" : String).data = ['\n'] := rfl
        rw [this, List.singleton_append, hasDB_cons_of_ne _ _ (by decide)]
        exact hrest
      rw [String.append_assoc]
      refine hasDBs_append _ _ hs hnl (Or.inl ?_)
      rw [String.data_append]
      have : ("\n" : String).data = ['\n'] := rfl
      rw [this]
      simp

/- ## Lemmas: batch driver -/

lemma generate_all_go_all_ok (oracles : Nat → Except String String) (rnds : Nat → Nat → Nat) (now : String) :
    ∀ (pages : List PageSpec) (st : GenState) (idx : Nat),
      (∀ j, j < pages.length → ∃ r, oracles (idx + j) = Except.ok r) →
      (generate_all_go oracles rnds now st idx pages).1.success = pages.map (fun p => p.title)
      ∧ (generate_all_go oracles rnds now st idx pages).1.failed = [] := by
  intro pages
  induction pages with
  | nil => intro st idx _; exact ⟨rfl, rfl⟩
  | cons p rest ih =>
    intro st idx hok
    obtain ⟨r, hr⟩ := hok 0 (by simp)
    rw [Nat.add_zero] at hr
    have hok' : ∀ j, j < rest.length → ∃ r, oracles (idx + 1 + j) = Except.ok r := by
      intro j hj
      have h := hok (j + 1) (by simpa using Nat.succ_lt_succ hj)
      rwa [show idx + (j + 1) = idx + 1 + j by omega] at h
    obtain ⟨h1, h2⟩ := ih _ (idx + 1) hok'
    simp only [generate_all_go, hr]
    exact ⟨by simpa using h1, by simpa using h2⟩

lemma generate_all_go_one_fail (oracles : Nat → Except String String) (rnds : Nat → Nat → Nat) (now e : String) :
    ∀ (pages : List PageSpec) (st : GenState) (idx i : Nat) (hi : i < pages.length),
      oracles (idx + i) = Except.error e →
      (∀ j, j < pages.length → j ≠ i → ∃ r, oracles (idx + j) = Except.ok r) →
      (generate_all_go oracles rnds now st idx pages).1.success = (pages.map (fun p => p.title)).eraseIdx i
      ∧ (generate_all_go oracles rnds now st idx pages).1.failed = [((pages.get ⟨i, hi⟩).title, e)] := by
  intro pages
  induction pages with
  | nil => intro st idx i hi _ _; exact absurd hi (by simp)
  | cons p rest ih =>
    intro st idx i hi hfail hok
    cases i with
    | zero =>
      rw [Nat.add_zero] at hfail
      have hok' : ∀ j, j < rest.length → ∃ r, oracles (idx + 1 + j) = Except.ok r := by
        intro j hj
        have h := hok (j + 1) (by simpa using Nat.succ_lt_succ hj) (Nat.succ_ne_zero j)
        rwa [show idx + (j + 1) = idx + 1 + j by omega] at h
      obtain ⟨h1, h2⟩ := generate_all_go_all_ok oracles rnds now rest st (idx + 1) hok'
      simp only [generate_all_go, hfail]
      exact ⟨by simpa using h1, by simpa using h2⟩
    | succ k =>
      have hk : k < rest.length := by simpa using Nat.lt_of_succ_lt_succ hi
      obtain ⟨r, hr⟩ := hok 0 (by simp) (Nat.succ_ne_zero k).symm
      rw [Nat.add_zero] at hr
      have hfail' : oracles (idx + 1 + k) = Except.error e := by
        rwa [show idx + (k + 1) = idx + 1 + k by omega] at hfail
      have hok' : ∀ j, j < rest.length → j ≠ k → ∃ r, oracles (idx + 1 + j) = Except.ok r := by
        intro j hj hne
        have h := hok (j + 1) (by simpa using Nat.succ_lt_succ hj) (by omega)
        rwa [show idx + (j + 1) = idx + 1 + j by omega] at h
      obtain ⟨h1, h2⟩ := ih ((generate_page st p (rnds idx) r now).state) (idx + 1) k hk hfail' hok'
      simp only [generate_all_go, hr]
      constructor
      · simpa using h1
      · simpa using h2

/- ## Lemmas: links section -/

lemma build_links_section_of_ne (st : GenState) (rnd : Nat → Nat)
    (h : get_eligible_links st.globalLinks st.linkUsage ≠ []) :
    build_links_section st rnd = nlJoin (build_links_section_lines st rnd) ++ "\n" := by
  rw [build_links_section, if_neg h]

lemma build_links_section_ne_empty (st : GenState) (rnd : Nat → Nat)
    (h : get_eligible_links st.globalLinks st.linkUsage ≠ []) :
    build_links_section st rnd ≠ "" := by
  rw [build_links_section_of_ne st rnd h]
  intro hcon
  have hdata : (nlJoin (build_links_section_lines st rnd) ++ "\n").data = ("" : String).data := by
    rw [hcon]
  rw [String.data_append] at hdata
  have hnl : ("\n" : String).data = ['\n'] := rfl
  rw [hnl] at hdata
  simp at hdata

lemma hasDBs_lit_append (lit s : String) (hlit : hasDBs lit = false) (hs : hasDBs s = false)
    (hlast : lit.data.getLast? ≠ some '[') : hasDBs (lit ++ s) = false :=
  hasDBs_append _ _ hlit hs (Or.inr hlast)

lemma hasDBs_append_lit (s lit : String) (hs : hasDBs s = false) (hlit : hasDBs lit = false)
    (hhead : lit.data.head? ≠ some '[') : hasDBs (s ++ lit) = false :=
  hasDBs_append _ _ hs hlit (Or.inl hhead)

lemma hasDBs_quoted (a : String) (ha : hasDBs a = false) : hasDBs ("\"" ++ a ++ "\"") = false := by
  refine hasDBs_append_lit _ _ ?_ (by decide) (by decide)
  exact hasDBs_lit_append _ _ (by decide) ha (by decide)

lemma hasDBs_commaJoin_quoted :
    ∀ (anchors : List String), (∀ a ∈ anchors, hasDBs a = false) →
      hasDBs (commaJoin (anchors.map (fun a => "\"" ++ a ++ "\""))) = false := by
  intro anchors
  induction anchors with
  | nil => intro _; rfl
  | cons a rest ih =>
    intro h
    have hq : hasDBs ("\"" ++ a ++ "\"") = false :=
      hasDBs_quoted a (h a (List.mem_cons_self _ _))
    cases rest with
    | nil => exact hq
    | cons b rest' =>
      rw [List.map_cons, List.map_cons, commaJoin]
      have hrest : hasDBs (commaJoin ((b :: rest').map (fun a => "\"" ++ a ++ "\""))) = false := by
        rw [List.map_cons]
        exact ih (fun x hx => h x (List.mem_cons_of_mem a hx))
      refine hasDBs_append _ _ ?_ hrest (Or.inr ?_)
      · exact hasDBs_append_lit _ _ hq (by decide) (by decide)
      · rw [String.data_append]
        rw [List.getLast?_append_of_ne_nil _ (by decide)]
        decide

lemma hasDBs_link_line (l : LinkEntry) (hu : hasDBs l.url = false)
    (ha : ∀ a ∈ l.anchors, hasDBs a = false) :
    ∀ s, link_line l = some s → hasDBs s = false := by
  intro s hs
  rw [link_line] at hs
  by_cases hc : l.url ≠ "" ∧ l.anchors ≠ []
  · rw [if_pos hc] at hs
    injection hs with hs
    subst hs
    refine hasDBs_append_lit _ _ ?_ (by decide) (by decide)
    refine hasDBs_append _ _ ?_ (hasDBs_commaJoin_quoted l.anchors ha) (Or.inr ?_)
    · refine hasDBs_append_lit _ _ ?_ (by decide) (by decide)
      exact hasDBs_lit_append _ _ (by decide) hu (by decide)
    · rw [String.data_append, List.getLast?_append_of_ne_nil _ (by decide)]
      decide
  · rw [if_neg hc] at hs; cases hs

set_option maxRecDepth 16384 in
lemma hasDBs_build_links_section (st : GenState) (rnd : Nat → Nat)
    (hfmt : st.contentFormat = "confluence")
    (hbank : ∀ l ∈ st.globalLinks, hasDBs l.url = false ∧ ∀ a ∈ l.anchors, hasDBs a = false)
    (hmask : ∀ l ∈ st.maskingLinks, hasDBs l.url = false ∧ ∀ a ∈ l.anchors, hasDBs a = false) :
    hasDBs (build_links_section st rnd) = false := by
  by_cases helig : get_eligible_links st.globalLinks st.linkUsage = []
  · rw [build_links_section, if_pos helig]; rfl
  · rw [build_links_section_of_ne st rnd helig]
    refine hasDBs_append_lit _ _ ?_ (by decide) (by decide)
    refine hasDBs_nlJoin _ ?_
    intro line hline
    have hnote : hasDBs (build_links_note st.contentFormat) = false := by
      rw [hfmt]; decide
    have hBase : line ∈
        (["\n## Global Link Bank (External Links)",
          "You MUST embed these links INLINE within the body paragraphs of the article, not in the External Links section at the bottom. Weave the anchor text naturally into sentences within relevant sections. Use only the provided anchor text options. Only include links that are contextually relevant to this page topic.",
          "IMPORTANT: Do NOT place these links in the == External Links == section. They must appear as inline hyperlinks within the article body text.",
          build_links_note st.contentFormat] : List String) → hasDBs line = false := by
      intro h4
      simp only [List.mem_cons, List.not_mem_nil, or_false] at h4
      rcases h4 with rfl | rfl | rfl | rfl
      · decide
      · decide
      · decide
      · exact hnote
    have hMaskFixed : line ∈
        (["", "## Natural Reference Links",
          "Include 1-2 of these non-commercial reference links where contextually appropriate. These are SECONDARY to the links above — only add them if they fit naturally. Do NOT prioritise these over the links in the Global Link Bank above.",
          build_links_note st.contentFormat] : List String) → hasDBs line = false := by
      intro h4
      simp only [List.mem_cons, List.not_mem_nil, or_false] at h4
      rcases h4 with rfl | rfl | rfl | rfl
      · decide
      · decide
      · decide
      · exact hnote
    have hElig : line ∈ (get_eligible_links st.globalLinks st.linkUsage).filterMap link_line →
        hasDBs line = false := by
      intro hx
      obtain ⟨l, hl, hsome⟩ := List.mem_filterMap.mp hx
      have hlb : l ∈ st.globalLinks := (get_eligible_sublist _ _).subset hl
      exact hasDBs_link_line l (hbank l hlb).1 (hbank l hlb).2 line hsome
    have hMask : line ∈ (get_random_masking_links rnd st.maskingLinks 3).filterMap link_line →
        hasDBs line = false := by
      intro hx
      obtain ⟨l, hl, hsome⟩ := List.mem_filterMap.mp hx
      have hlb : l ∈ st.maskingLinks := (get_random_masking_subperm rnd st.maskingLinks 3).subset hl
      exact hasDBs_link_line l (hmask l hlb).1 (hmask l hlb).2 line hsome
    simp only [build_links_section_lines] at hline
    by_cases hms : get_random_masking_links rnd st.maskingLinks 3 = []
    · rw [if_neg (fun hcon => hcon hms)] at hline
      rcases List.mem_append.mp hline with h4 | hFM
      · exact hBase h4
      · exact hElig hFM
    · rw [if_pos hms] at hline
      rcases List.mem_append.mp hline with hW | hFM
      · rcases List.mem_append.mp hW with hW2 | h4
        · rcases List.mem_append.mp hW2 with h4 | hFM
          · exact hBase h4
          · exact hElig hFM
        · exact hMaskFixed h4
      · exact hMask hFM

/- ## Lemmas: state of `add_links_to_existing`, invariant preservation -/

lemma add_links_state (st : GenState) (existing : String) (page : PageSpec) (mode : String)
    (rnd : Nat → Nat) (response : String) :
    (add_links_to_existing st existing page mode rnd response).state =
      if mode = "add_operator" ∧ get_eligible_links st.globalLinks st.linkUsage ≠ [] then
        { st with linkUsage := trackUsage (get_eligible_links st.globalLinks st.linkUsage) response st.linkUsage }
      else st := by
  by_cases hm : mode = "add_masking"
  · have hop : ¬(mode = "add_operator") := by rw [hm]; decide
    by_cases hl : get_random_masking_links rnd st.maskingLinks 3 = []
    · simp [add_links_to_existing, hm, hop, hl]
    · simp [add_links_to_existing, hm, hop, hl]
  · by_cases ho : mode = "add_operator"
    · by_cases he : get_eligible_links st.globalLinks st.linkUsage = []
      · simp [add_links_to_existing, hm, ho, he]
      · simp [add_links_to_existing, hm, ho, he]
    · by_cases he : get_eligible_links st.globalLinks st.linkUsage = []
      · simp [add_links_to_existing, hm, ho, he]
      · simp [add_links_to_existing, hm, ho, he]

lemma trackUsage_eligible_preserves (bank : List LinkEntry) (usage : String → Nat) (content : String)
    (hnodup : (bank.map (fun l => l.url)).Nodup) (hinv : UsageInv bank usage) :
    UsageInv bank (trackUsage (get_eligible_links bank usage) content usage) := by
  intro l hl hc
  have hnd : ((get_eligible_links bank usage).map (fun x => x.url)).Nodup :=
    hnodup.sublist ((get_eligible_sublist bank usage).map _)
  have hne : ∀ x ∈ get_eligible_links bank usage, x.url ≠ "" :=
    fun x hx => ((mem_get_eligible _ _ x).mp hx).2.1
  rw [trackUsage_eq content _ usage l.url hnd hne]
  by_cases hany : ((get_eligible_links bank usage).any
      (fun x => x.url == l.url && strContains content x.url)) = true
  · rw [if_pos hany]
    obtain ⟨x, hxmem, hx⟩ := List.any_eq_true.mp hany
    obtain ⟨hxu, -⟩ := Bool.and_eq_true _ _ |>.mp hx
    rw [beq_iff_eq] at hxu
    have hxbank : x ∈ bank := (get_eligible_sublist bank usage).subset hxmem
    have hxl : x = l := List.inj_on_of_nodup_map hnodup hxbank hl hxu
    subst hxl
    obtain ⟨-, -, hcond⟩ := (mem_get_eligible bank usage x).mp hxmem
    rcases hcond with h0 | hlt
    · omega
    · omega
  · rw [if_neg hany]
    exact hinv l hl hc

/- ## Claims -/

/-- C1 (corrected): `_get_eligible_links` returns exactly those bank entries
with a non-empty URL whose `count` is `0` or strictly greater than the
current usage of their URL, in bank order (a filter of the bank);
consequently an entry with `count = N > 0` is not returned under any usage
map in which its URL has reached `N` (in particular, forever after `N`
recorded usages, since usage only grows), and an entry with `count = 0`
and a non-empty URL is returned under every usage map. -/
theorem eligible_links_characterisation (bank : List LinkEntry) (usage : String → Nat) :
    get_eligible_links bank usage =
      bank.filter (fun l => decide (l.url ≠ "" ∧ (l.count = 0 ∨ usage l.url < l.count)))
    ∧ (∀ l ∈ bank, 0 < l.count → ∀ usage2 : String → Nat, l.count ≤ usage2 l.url →
        l ∉ get_eligible_links bank usage2)
    ∧ (∀ l ∈ bank, l.url ≠ "" → l.count = 0 → ∀ usage2 : String → Nat,
        l ∈ get_eligible_links bank usage2) := by
  refine ⟨get_eligible_eq_filter bank usage, ?_, ?_⟩
  · intro l hl hc usage2 hge hmem
    obtain ⟨-, -, hcond⟩ := (mem_get_eligible bank usage2 l).mp hmem
    rcases hcond with h0 | hlt
    · omega
    · omega
  · intro l hl hu hc usage2
    exact (mem_get_eligible bank usage2 l).mpr ⟨hl, hu, Or.inl hc⟩

/-- Witness for C1: once the quota-one link has one recorded usage it is no
longer eligible. -/
theorem eligible_links_characterisation_witness :
    aLink ∉ get_eligible_links [aLink, bLink] (fun _ => 1) :=
  (eligible_links_characterisation [aLink, bLink] (fun _ => 0)).2.1 aLink (by decide)
    (by decide) (fun _ => 1) (by decide)

/-- Counterexample for C1 as frozen: a bank entry with `target_count = 0`
but an empty URL is never returned by `_get_eligible_links`, although the
claim says every entry with `target_count = 0` is returned regardless. -/
theorem eligible_links_empty_url_cex :
    emptyUrlEntry ∈ [emptyUrlEntry] ∧ emptyUrlEntry.count = 0
    ∧ emptyUrlEntry ∉ get_eligible_links [emptyUrlEntry] (fun _ => 0) :=
  ⟨by decide, by decide, by decide⟩

/-- C2: the link-usage invariant (`usage[url] ≤ target_count` whenever
`target_count > 0`) holds after `set_global_links` (usage all zero) and is
preserved by `generate_page` and by `add_links_to_existing` in every mode,
for a bank with pairwise-distinct URLs (the data model makes `url` a
unique key), because usage is only incremented for links eligible at the
time of the model call. -/
theorem usage_invariant (st0 : GenState) (links : List LinkEntry) :
    UsageInv links ((set_global_links st0 links).linkUsage)
    ∧ (∀ (st : GenState) (page : PageSpec) (rnd : Nat → Nat) (response now : String),
        (st.globalLinks.map (fun l => l.url)).Nodup → UsageInv st.globalLinks st.linkUsage →
        UsageInv st.globalLinks ((generate_page st page rnd response now).state.linkUsage))
    ∧ (∀ (st : GenState) (existing : String) (page : PageSpec) (mode : String)
        (rnd : Nat → Nat) (response : String),
        (st.globalLinks.map (fun l => l.url)).Nodup → UsageInv st.globalLinks st.linkUsage →
        UsageInv st.globalLinks ((add_links_to_existing st existing page mode rnd response).state.linkUsage)) := by
  refine ⟨fun l _ _ => Nat.zero_le _, ?_, ?_⟩
  · intro st page rnd response now hnodup hinv
    exact trackUsage_eligible_preserves st.globalLinks st.linkUsage response hnodup hinv
  · intro st existing page mode rnd response hnodup hinv
    rw [add_links_state]
    by_cases hcond : mode = "add_operator" ∧ get_eligible_links st.globalLinks st.linkUsage ≠ []
    · rw [if_pos hcond]
      exact trackUsage_eligible_preserves st.globalLinks st.linkUsage response hnodup hinv
    · rw [if_neg hcond]
      exact hinv

/-- Witness for C2: the invariant holds after a page generation whose
response embeds the quota-one link. -/
theorem usage_invariant_witness :
    UsageInv wSt.globalLinks ((generate_page wSt wPage (fun _ => 0) wResponse "t0").state.linkUsage) :=
  (usage_invariant wSt0 []).2.1 wSt wPage (fun _ => 0) wResponse "t0" (by decide)
    (by unfold UsageInv; decide)

/-- C3 (corrected): after the model call `generate_page` checks literal
substring presence only for the links that were eligible before the call
(sampled masking links are not checked and never recorded): for a bank
with pairwise-distinct URLs, `usage[u]` is incremented by exactly `1`
when some eligible link has URL `u` occurring literally in the response,
and is unchanged for every other URL. -/
theorem generate_page_usage_accounting (st : GenState) (page : PageSpec) (rnd : Nat → Nat)
    (response now : String)
    (hnodup : (st.globalLinks.map (fun l => l.url)).Nodup) (u : String) :
    (generate_page st page rnd response now).state.linkUsage u =
      if ((get_eligible_links st.globalLinks st.linkUsage).any
            (fun l => l.url == u && strContains response l.url)) = true
      then st.linkUsage u + 1 else st.linkUsage u := by
  have hnd : ((get_eligible_links st.globalLinks st.linkUsage).map (fun x => x.url)).Nodup :=
    hnodup.sublist ((get_eligible_sublist _ _).map _)
  have hne : ∀ x ∈ get_eligible_links st.globalLinks st.linkUsage, x.url ≠ "" :=
    fun x hx => ((mem_get_eligible _ _ x).mp hx).2.1
  exact trackUsage_eq response _ st.linkUsage u hnd hne

/-- Witness for C3: the eligible quota-one link occurring in the response
is recorded exactly once. -/
theorem generate_page_usage_accounting_witness :
    (generate_page wSt wPage (fun _ => 0) wResponse "t0").state.linkUsage "https://a.example/x/" = 1 := by
  have h := generate_page_usage_accounting wSt wPage (fun _ => 0) wResponse "t0" (by decide)
    "https://a.example/x/"
  rw [h, if_pos (by decide)]
  decide

/-- Counterexample for C3 as frozen: a sampled masking link whose URL
appears literally in the response does not get `recordUsage` called — its
usage count stays `0` instead of being incremented by `1`. -/
theorem generate_page_masking_not_recorded_cex :
    get_random_masking_links (fun _ => 0) cexSt.maskingLinks 3 = [mLink]
    ∧ strContains cexResponse mLink.url = true
    ∧ (generate_page cexSt wPage (fun _ => 0) cexResponse "t0").state.linkUsage mLink.url = 0
    ∧ ¬((generate_page cexSt wPage (fun _ => 0) cexResponse "t0").state.linkUsage mLink.url
        = cexSt.linkUsage mLink.url + 1) :=
  ⟨by decide, by decide, by decide, by decide⟩

/-- C4: `add_links_to_existing` never touches the usage map unless
`mode = "add_operator"`; in mode `add_masking` the usage map is unchanged,
and in `add_operator` mode each eligible link whose URL occurs literally in
the model output is incremented by exactly `1` (distinct-URL bank),
mirroring the accounting of `generate_page`. -/
theorem add_links_frame (st : GenState) (existing : String) (page : PageSpec) (mode : String)
    (rnd : Nat → Nat) (response : String)
    (hnodup : (st.globalLinks.map (fun l => l.url)).Nodup) :
    ((add_links_to_existing st existing page "add_masking" rnd response).state.linkUsage = st.linkUsage)
    ∧ (mode ≠ "add_operator" →
        (add_links_to_existing st existing page mode rnd response).state.linkUsage = st.linkUsage)
    ∧ (∀ u, (add_links_to_existing st existing page "add_operator" rnd response).state.linkUsage u =
        if ((get_eligible_links st.globalLinks st.linkUsage).any
              (fun l => l.url == u && strContains response l.url)) = true
        then st.linkUsage u + 1 else st.linkUsage u) := by
  have hnd : ((get_eligible_links st.globalLinks st.linkUsage).map (fun x => x.url)).Nodup :=
    hnodup.sublist ((get_eligible_sublist _ _).map _)
  have hne : ∀ x ∈ get_eligible_links st.globalLinks st.linkUsage, x.url ≠ "" :=
    fun x hx => ((mem_get_eligible _ _ x).mp hx).2.1
  refine ⟨?_, ?_, ?_⟩
  · rw [add_links_state, if_neg (fun hcon => absurd hcon.1 (by decide))]
  · intro hmode
    rw [add_links_state, if_neg (fun hcon => hmode hcon.1)]
  · intro u
    rw [add_links_state]
    by_cases he : get_eligible_links st.globalLinks st.linkUsage = []
    · rw [if_neg (fun hcon => hcon.2 he), he]
      simp
    · rw [if_pos ⟨rfl, he⟩]
      exact trackUsage_eq response _ st.linkUsage u hnd hne

/-- Witness for C4: an `add_masking` call leaves the usage map of a loaded
state unchanged. -/
theorem add_links_frame_witness :
    (add_links_to_existing wSt "body" wPage "add_masking" (fun _ => 0) "resp").state.linkUsage
      = wSt.linkUsage :=
  (add_links_frame wSt "body" wPage "add_masking" (fun _ => 0) "resp" (by decide)).1

/-- C5: when exactly one page's model call raises, `generate_all` runs to
completion: every other page's title is in `success` (in order) and
`failed` holds exactly one entry, carrying the failing page's title. -/
theorem batch_partial_failure (st : GenState) (pages : List PageSpec)
    (oracles : Nat → Except String String) (rnds : Nat → Nat → Nat) (now : String)
    (i : Nat) (e : String) (hi : i < pages.length)
    (hfail : oracles i = Except.error e)
    (hok : ∀ j, j < pages.length → j ≠ i → ∃ r, oracles j = Except.ok r) :
    (generate_all st pages oracles rnds now).1.success = (pages.map (fun p => p.title)).eraseIdx i
    ∧ (generate_all st pages oracles rnds now).1.failed = [((pages.get ⟨i, hi⟩).title, e)]
    ∧ (generate_all st pages oracles rnds now).1.success.length + 1 = pages.length := by
  have hfail0 : oracles (0 + i) = Except.error e := by rwa [Nat.zero_add]
  have hok0 : ∀ j, j < pages.length → j ≠ i → ∃ r, oracles (0 + j) = Except.ok r := by
    intro j hj hne
    rw [Nat.zero_add]
    exact hok j hj hne
  obtain ⟨h1, h2⟩ := generate_all_go_one_fail oracles rnds now e pages st 0 i hi hfail0 hok0
  refine ⟨h1, h2, ?_⟩
  show (generate_all_go oracles rnds now st 0 pages).1.success.length + 1 = pages.length
  rw [h1]
  have hlen := List.length_eraseIdx_add_one
    (l := pages.map (fun p => p.title)) (i := i) (by simpa using hi)
  simpa using hlen

/-- Witness for C5: a three-page batch whose second model call raises has
`success = [P1, P3]` and `failed = [(P2, boom)]`. -/
theorem batch_partial_failure_witness :
    (generate_all wSt0 [wp1, wp2, wp3] wOracle (fun _ _ => 0) "t0").1.success = ["P1", "P3"]
    ∧ (generate_all wSt0 [wp1, wp2, wp3] wOracle (fun _ _ => 0) "t0").1.failed = [("P2", "boom")] := by
  have hok : ∀ j, j < ([wp1, wp2, wp3] : List PageSpec).length → j ≠ 1 →
      ∃ r, wOracle j = Except.ok r := by
    intro j hj hne
    have hj3 : j < 3 := by simpa using hj
    have hj' : j = 0 ∨ j = 2 := by omega
    rcases hj' with rfl | rfl
    · exact ⟨"body", rfl⟩
    · exact ⟨"body", rfl⟩
  have h := batch_partial_failure wSt0 [wp1, wp2, wp3] wOracle (fun _ _ => 0) "t0" 1 "boom"
    (by decide) rfl hok
  exact ⟨h.1.trans (by decide), h.2.1.trans (by decide)⟩

/-- C6: with at least one eligible link, `generate_page` inserts the link
bank section immediately before the `## Output Requirements` anchor of
`build_page_prompt`'s output (stated for the first occurrence of the
anchor via `splitFirst`, with no further occurrence after it), appends the
section at the end when the anchor is absent, and leaves the prompt
exactly equal to `build_page_prompt`'s output when no link is eligible. -/
theorem generate_page_prompt_anchor (st : GenState) (page : PageSpec) (rnd : Nat → Nat)
    (response now : String) :
    (get_eligible_links st.globalLinks st.linkUsage = [] →
      (generate_page st page rnd response now).prompt = build_page_prompt page st.config st.contentFormat)
    ∧ (get_eligible_links st.globalLinks st.linkUsage ≠ [] →
        (∀ a b, splitFirst outputMarker.data (build_page_prompt page st.config st.contentFormat).data
            = some (a, b) →
          occursIn outputMarker.data b = false →
          (generate_page st page rnd response now).prompt.data =
            a ++ (build_links_section st rnd).data ++ outputMarker.data ++ b)
        ∧ (occursIn outputMarker.data (build_page_prompt page st.config st.contentFormat).data = false →
            (generate_page st page rnd response now).prompt =
              build_page_prompt page st.config st.contentFormat ++ build_links_section st rnd)) := by
  constructor
  · intro helig
    have hsec : build_links_section st rnd = "" := by rw [build_links_section, if_pos helig]
    simp only [generate_page, hsec]
    rw [if_neg (by simp)]
  · intro helig
    have hne := build_links_section_ne_empty st rnd helig
    constructor
    · intro a b hsplit hocc
      have hmk : outputMarker.data ≠ [] := by decide
      obtain ⟨hdecomp, hrepl⟩ := splitFirst_spec outputMarker.data
        ((build_links_section st rnd ++ outputMarker).data) hmk
        (build_page_prompt page st.config st.contentFormat).data a b hsplit
      have hcont : strContains (build_page_prompt page st.config st.contentFormat) outputMarker = true := by
        show occursIn outputMarker.data (build_page_prompt page st.config st.contentFormat).data = true
        rw [hdecomp, List.append_assoc]
        exact occursIn_append_right _ a _ (occursIn_self_append _ b)
      have hprompt : (generate_page st page rnd response now).prompt =
          strReplace (build_page_prompt page st.config st.contentFormat) outputMarker
            (build_links_section st rnd ++ outputMarker) := by
        simp only [generate_page]
        rw [if_pos hne, if_pos hcont]
      rw [hprompt]
      show replaceAll outputMarker.data ((build_links_section st rnd ++ outputMarker).data)
          (build_page_prompt page st.config st.contentFormat).data = _
      rw [hrepl, replaceAll_not_occurs _ _ b hocc, String.data_append]
      simp [List.append_assoc]
    · intro hnocc
      have hcont : ¬(strContains (build_page_prompt page st.config st.contentFormat) outputMarker = true) := by
        show ¬(occursIn outputMarker.data (build_page_prompt page st.config st.contentFormat).data = true)
        rw [hnocc]
        exact Bool.false_ne_true
      simp only [generate_page]
      rw [if_pos hne, if_neg hcont]

/-- Witness for C6: with no eligible link the composed prompt is exactly
the output of `build_page_prompt`. -/
theorem generate_page_prompt_anchor_witness :
    (generate_page wSt0 wPage (fun _ => 0) "r" "t0").prompt
      = build_page_prompt wPage wSt0.config wSt0.contentFormat :=
  (generate_page_prompt_anchor wSt0 wPage (fun _ => 0) "r" "t0").1 rfl

/-- C7: `_get_random_masking_links(n)` on a masking bank of size `k`
returns `min n k` entries drawn without replacement (the result is a
sub-permutation of the bank, hence pairwise distinct when the bank's URLs
are pairwise distinct, as the data model's unique-key constraint
requires), and returns `[]` when the bank is empty or was never set. -/
theorem masking_sample_spec (rnd : Nat → Nat) (masking : List LinkEntry) (n : Nat) :
    (get_random_masking_links rnd masking n).length = min n masking.length
    ∧ List.Subperm (get_random_masking_links rnd masking n) masking
    ∧ ((masking.map (fun l => l.url)).Nodup → (get_random_masking_links rnd masking n).Nodup)
    ∧ (masking = [] → get_random_masking_links rnd masking n = []) := by
  refine ⟨?_, get_random_masking_subperm rnd masking n, ?_, ?_⟩
  · rw [get_random_masking_links]
    by_cases h : masking = []
    · rw [if_pos h, h]
      simp
    · rw [if_neg h]
      exact randomSample_length rnd _ 0 masking (Nat.min_le_right n masking.length)
  · intro hnd
    have hbank : masking.Nodup := hnd.of_map
    obtain ⟨w, hperm, hsub⟩ := get_random_masking_subperm rnd masking n
    exact hperm.nodup (hbank.sublist hsub)
  · intro h
    rw [get_random_masking_links, if_pos h]

/-- Witness for C7: a two-entry bank sampled with `n = 3` yields a
duplicate-free sequence. -/
theorem masking_sample_spec_witness :
    (get_random_masking_links (fun _ => 0) [mLink, bLink] 3).Nodup :=
  (masking_sample_spec (fun _ => 0) [mLink, bLink] 3).2.2.1 (by decide)

/-- C8: in `confluence` format, when every URL and anchor of both banks is
free of the `[[` wiki-link opener, the link-bank section never contains
`[[` (so no raw `[[Page]]` wiki internal-link syntax), and its syntax note
is the anchor-tag instruction line. -/
theorem confluence_section_no_wikilink (st : GenState) (rnd : Nat → Nat)
    (hfmt : st.contentFormat = "confluence")
    (hbank : ∀ l ∈ st.globalLinks, hasDBs l.url = false ∧ ∀ a ∈ l.anchors, hasDBs a = false)
    (hmask : ∀ l ∈ st.maskingLinks, hasDBs l.url = false ∧ ∀ a ∈ l.anchors, hasDBs a = false) :
    hasDBs (build_links_section st rnd) = false
    ∧ (get_eligible_links st.globalLinks st.linkUsage ≠ [] →
        build_links_note st.contentFormat ∈ build_links_section_lines st rnd)
    ∧ build_links_note "confluence" =
        "These are EXTERNAL links — use <a href=\"URL\">anchor</a> format. Do NOT use <ac:link> for these." := by
  refine ⟨hasDBs_build_links_section st rnd hfmt hbank hmask, ?_, rfl⟩
  intro _
  simp only [build_links_section_lines]
  by_cases hms : get_random_masking_links rnd st.maskingLinks 3 = []
  · rw [if_neg (fun hcon => hcon hms)]
    refine List.mem_append_left _ ?_
    simp
  · rw [if_pos hms]
    refine List.mem_append_left _ (List.mem_append_left _ (List.mem_append_left _ ?_))
    simp

/-- Witness for C8: the section built for a concrete confluence state
contains no `[[`. -/
theorem confluence_section_no_wikilink_witness :
    hasDBs (build_links_section cSt (fun _ => 0)) = false :=
  (confluence_section_no_wikilink cSt (fun _ => 0) rfl (by decide) (by decide)).1

/-- C9: `build_system_prompt` and `build_page_prompt` are pure functions of
their arguments (the embedding gives them no access to generator state,
randomness or I/O): byte-identical inputs give byte-identical outputs. -/
theorem prompt_builders_deterministic (c1 c2 : WikiConfig) (f1 f2 : String)
    (k1 k2 : Option String) (p1 p2 : PageSpec)
    (hc : c1 = c2) (hf : f1 = f2) (hk : k1 = k2) (hp : p1 = p2) :
    build_system_prompt c1 f1 k1 = build_system_prompt c2 f2 k2
    ∧ build_page_prompt p1 c1 f1 = build_page_prompt p2 c2 f2 := by
  subst hc; subst hf; subst hk; subst hp
  exact ⟨rfl, rfl⟩

/-- Witness for C9: two calls on the same concrete inputs agree. -/
theorem prompt_builders_deterministic_witness :
    build_system_prompt wCfg "mediawiki" none = build_system_prompt wCfg "mediawiki" none
    ∧ build_page_prompt wPage wCfg "mediawiki" = build_page_prompt wPage wCfg "mediawiki" :=
  prompt_builders_deterministic wCfg wCfg "mediawiki" "mediawiki" none none wPage wPage
    rfl rfl rfl rfl

/-- C10: with no eligible primary link `_build_links_section` returns the
empty string, the composed prompt is exactly `build_page_prompt`'s output
(masking links are never sampled into it, whatever the masking bank), and
any header absent from that output — such as the Global Link Bank or
Natural Reference Links headers — is absent from the composed prompt. -/
theorem no_eligible_no_sections (st : GenState) (page : PageSpec) (rnd : Nat → Nat)
    (response now : String)
    (h : get_eligible_links st.globalLinks st.linkUsage = []) :
    build_links_section st rnd = ""
    ∧ (generate_page st page rnd response now).prompt
        = build_page_prompt page st.config st.contentFormat
    ∧ (∀ hdr : String,
        occursIn hdr.data (build_page_prompt page st.config st.contentFormat).data = false →
        occursIn hdr.data (generate_page st page rnd response now).prompt.data = false) := by
  have hsec : build_links_section st rnd = "" := by rw [build_links_section, if_pos h]
  have hpr : (generate_page st page rnd response now).prompt
      = build_page_prompt page st.config st.contentFormat := by
    simp only [generate_page, hsec]
    rw [if_neg (by simp)]
  exact ⟨hsec, hpr, fun hdr hh => by rw [hpr]; exact hh⟩

/-- Witness for C10: the empty-bank state yields an empty links section
even though its masking bank is non-empty. -/
theorem no_eligible_no_sections_witness :
    build_links_section { wSt0 with maskingLinks := [mLink] } (fun _ => 0) = "" :=
  (no_eligible_no_sections { wSt0 with maskingLinks := [mLink] } wPage (fun _ => 0) "r" "t0" rfl).1
